import Mathlib

set_option maxRecDepth 100000

/-!
# Verification of the wallet-rs cryptographic wallet core

A shallow embedding of the repository's four source files
(`src/unlocked.rs`, `src/locked.rs`, `src/contents/key_pair.rs`,
`src/contents/public_key_info.rs`) and proofs about the claims of the
specification.

Modelling conventions:

* Rust byte strings (`Vec<u8>`, `&[u8]`) are `List Nat`.  Element values
  are not clamped to `< 256`; no claim depends on byte range.
* External cryptographic crates (ursa, k256, secp256k1, ed25519-dalek,
  signature_bls, sha3, chacha20poly1305, crypto_box, serde_json) are not
  part of this repository; they are modelled symbolically: hash values,
  public keys and signatures are byte strings of the correct length whose
  first element carries an injective encoding of the inputs that produced
  them.  The symbolic layer is collision-free (a Dolev-Yao style ideal
  model), which is the standard idealization of collision-resistant
  hashing and unforgeable signatures.
* Rust functions that can panic (slice indexing out of bounds, `unwrap()`
  on `None`/`Err`, `usize` subtraction underflow) are embedded into a
  result type `RRes` with an explicit `crash` outcome representing the
  panic.
* Randomness (`OsRng`, `keypair(None)`, the AEAD nonce of
  `encrypt_easy`) is passed as an explicit extra argument.
-/

namespace Wallet

/-! ## Injective list-of-naturals codec

The symbolic crypto layer needs an injective, executable map
`List Nat → Nat` with moderate growth (iterated `Nat.pair` squares and is
infeasible to evaluate on 32-element keys).  We encode each element in
binary (digits `0`/`1`), terminate each element with the digit `2`, and
read the digit string as a base-3 numeral.  A verified decoder gives
injectivity. -/

/-- Little-endian binary digits of `n`, with explicit fuel for structural
recursion (so that the kernel can evaluate it inside `decide`). -/
def natBits : Nat → Nat → List Nat
  | 0, _ => []
  | f + 1, n => if n = 0 then [] else n % 2 :: natBits f (n / 2)

/-- Little-endian binary digits of `n`. -/
def bitsOf (n : Nat) : List Nat := natBits n n

/-- Value of a little-endian binary digit list. -/
def unBits : List Nat → Nat
  | [] => 0
  | b :: bs => b + 2 * unBits bs

/-- Value of a little-endian base-3 digit list. -/
def unDigits3 : List Nat → Nat
  | [] => 0
  | d :: ds => d + 3 * unDigits3 ds

/-- Little-endian base-3 digits of `n`, with fuel. -/
def digits3 : Nat → Nat → List Nat
  | 0, _ => []
  | f + 1, n => if n = 0 then [] else n % 3 :: digits3 f (n / 3)

/-- Digit string of a list: binary digits of each element followed by the
separator digit `2`. -/
def encDigits (l : List Nat) : List Nat :=
  l.foldr (fun x acc => bitsOf x ++ 2 :: acc) []

/-- The injective encoding of a list of naturals as one natural. -/
def encL (l : List Nat) : Nat := unDigits3 (encDigits l)

/-- Split a digit string at the first separator digit `2`. -/
def takeGroup : List Nat → List Nat × List Nat
  | [] => ([], [])
  | d :: rest =>
    if d = 2 then ([], rest)
    else
      let p := takeGroup rest
      (d :: p.1, p.2)

/-- Decode a digit string back into the list of naturals, with fuel. -/
def groupsAux : Nat → List Nat → List Nat
  | 0, _ => []
  | f + 1, ds =>
    if ds.isEmpty then []
    else
      let p := takeGroup ds
      unBits p.1 :: groupsAux f p.2

/-- The decoder for `encL`. -/
def decL (n : Nat) : List Nat :=
  groupsAux (digits3 n n).length (digits3 n n)

/-- Well-formed digit strings: all digits below 3 and the most significant
digit nonzero.  Every `encDigits` output is well-formed. -/
def goodD : List Nat → Prop
  | [] => True
  | d :: ds => d < 3 ∧ (ds = [] → d ≠ 0) ∧ goodD ds

/-- Injective pairing of two naturals built on `encL`. -/
def enc2 (a b : Nat) : Nat := encL [a, b]

/-! ## Data model

Translated from `src/contents/public_key_info.rs` (the `KeyType` and
`PublicKeyInfo` declarations), `src/contents/key_pair.rs` (`KeyPair`),
`src/locked.rs` (`LockedWallet`) and `src/unlocked.rs` (`UnlockedWallet`).
Strings are byte lists. -/

/-- Rust byte strings and strings. -/
abbrev Bytes := List Nat

/-- The `KeyType` enum of `src/contents/public_key_info.rs`, in source
declaration order. -/
inductive KeyType where
  | JwsVerificationKey2020
  | EcdsaSecp256k1VerificationKey2019
  | Ed25519VerificationKey2018
  | GpgVerificationKey2020
  | RsaVerificationKey2018
  | X25519KeyAgreementKey2019
  | SchnorrSecp256k1VerificationKey2019
  | EcdsaSecp256k1RecoveryMethod2020
  | Bls12381G1Key2020
  | Bls12381G2Key2020
  deriving DecidableEq

/-- Modelled from the spec: the crate's `Error` enum is not among the four
source files under `src/`; its variants are reconstructed from its uses in
`src/locked.rs` (`AeadCryptoError`, `Utf8`, `Serde`),
`src/contents/key_pair.rs` (`UrsaCryptoError`, `SecpCryptoError`,
`WrongKeyType`, `UnsupportedKeyType`) and
`src/contents/public_key_info.rs` (`WrongKeyLength`, `EdCryptoError`,
`EcdsaCryptoError`, `BoxToSmall`, `Other`), matching the spec's error
taxonomy (§7).  Wrapped library payloads are dropped. -/
inductive Error where
  | UnsupportedKeyType
  | WrongKeyType
  | WrongKeyLength
  | AeadCryptoError
  | Utf8
  | Serde
  | UrsaCryptoError
  | SecpCryptoError
  | EcdsaCryptoError
  | EdCryptoError
  | BoxToSmall
  | Other
  deriving DecidableEq

/-- Outcome of a Rust computation: success, a typed error, or a panic
(out-of-bounds slice, `unwrap()` failure, `usize` underflow).  `crash`
is the embedding of a Rust panic. -/
inductive RRes (ε α : Type) where
  | ok (a : α)
  | err (e : ε)
  | crash
  deriving DecidableEq

/-- The `PublicKeyInfo` struct of `src/contents/public_key_info.rs`. -/
structure PublicKeyInfo where
  controller : List Bytes
  key_type : KeyType
  public_key : Bytes
  deriving DecidableEq

/-- The `KeyPair` struct of `src/contents/key_pair.rs`. -/
structure KeyPair where
  public_key : PublicKeyInfo
  private_key : Bytes
  deriving DecidableEq

/-- Modelled from the spec: the `Content` tagged union of the wallet's
content map is not among the four source files under `src/`; per §3 and §6
it exposes at least a `Key(KeyPair)` variant, and all other variants are
opaque to this core and only feed the "incorrect content type" error
path. -/
inductive Content where
  | Key (kp : KeyPair)
  | Opaque (payload : Bytes)
  deriving DecidableEq

/-- The `UnlockedWallet` struct of `src/unlocked.rs`; the `HashMap` content
map is modelled as an association list with unique keys (insertion order
is irrelevant to every claim). -/
structure UnlockedWallet where
  context : List Bytes
  id : Bytes
  wallet_type : List Bytes
  contents : List (Bytes × Content)
  deriving DecidableEq

/-- The `LockedWallet` struct of `src/locked.rs`. -/
structure LockedWallet where
  id : Bytes
  ciphertext : Bytes
  deriving DecidableEq

/-! ## Symbolic models of the external cryptographic crates

Hashes, public keys and signatures are fixed-length byte strings whose
head element is an injective `enc2` package of the producing inputs; the
remaining positions are zero padding.  Distinct tag constants keep the
ranges of the different primitives disjoint, which is the symbolic
counterpart of collision resistance across algorithms. -/

/-- Fixed-length symbolic byte string: the payload in the head, zero
padding after it. -/
def packed (len payload : Nat) : Bytes :=
  payload :: List.replicate (len - 1) 0

def tagSha3 : Nat := 1
def tagKeccak : Nat := 2
def tagRandom : Nat := 3
def tagEdPk : Nat := 4
def tagEdSig : Nat := 5
def tagSecpPk : Nat := 6
def tagSecpSig : Nat := 7
def tagRecSig : Nat := 8
def tagXPk : Nat := 9
def tagBlsPkVt : Nat := 10
def tagBlsSigVt : Nat := 11
def tagBlsPk : Nat := 12
def tagBlsSig : Nat := 13
def tagSealedBox : Nat := 14

/-- The AEAD cipher identifiers: `Aes256Gcm` used by the `ursa`
`SymmetricEncryptor` in `src/unlocked.rs`, and `XChaCha20Poly1305` used by
`src/locked.rs`. -/
def cipherAes : Nat := 1
def cipherXCha : Nat := 2

/-- Model of `sha3::Sha3_256` (used for password-based key derivation in
`src/locked.rs` and `src/unlocked.rs`): an injective 32-byte digest. -/
def sha3_256 (input : Bytes) : Bytes :=
  packed 32 (enc2 tagSha3 (encL input))

/-- Model of `sha3::Keccak256` (used by the recovery signing branch of
`src/contents/key_pair.rs`): an injective 32-byte digest, with a tag
distinct from `sha3_256`. -/
def keccak256 (input : Bytes) : Bytes :=
  packed 32 (enc2 tagKeccak (encL input))

/-- Model of a 32-byte output of a cryptographically secure random source
(`OsRng` and `keypair(None)` draws), indexed by an explicit seed. -/
def randomBytes32 (rand : Nat) : Bytes :=
  packed 32 (enc2 tagRandom rand)

/-- Model of Ed25519 public-key derivation (ursa `Ed25519Sha512`): a
32-byte point determined by the 32-byte seed. -/
def edDerivePk (seed : Bytes) : Bytes :=
  packed 32 (enc2 tagEdPk (encL seed))

/-- Model of an Ed25519 signature over `data` by the secret key whose
public key is `pk`: 64 bytes, determined by `(pk, data)` (existential
unforgeability, symbolically). -/
def edSigBytes (pk data : Bytes) : Bytes :=
  packed 64 (enc2 tagEdSig (enc2 (encL pk) (encL data)))

/-- Model of secp256k1 public-key derivation (ursa
`EcdsaSecp256k1Sha256` / the `secp256k1` crate): a 33-byte SEC1
compressed point determined by the 32-byte secret scalar. -/
def secpDerivePk (sk : Bytes) : Bytes :=
  packed 33 (enc2 tagSecpPk (encL sk))

/-- Model of a 64-byte ECDSA/SHA-256 secp256k1 signature (produced by ursa
`EcdsaSecp256k1Sha256::sign`, checked by `k256` `VerifyingKey::verify`):
determined by `(pk, data)`. -/
def secpSigBytes (pk data : Bytes) : Bytes :=
  packed 64 (enc2 tagSecpSig (enc2 (encL pk) (encL data)))

/-- Model of the 64-byte `r‖s` part of a recoverable secp256k1 signature
over a 32-byte digest (produced by `secp256k1::sign_recoverable`, checked
by `k256` `recoverable::Signature::from_trial_recovery`): determined by
`(pk, digest)`. -/
def recSigRS (pk digest : Bytes) : Bytes :=
  packed 64 (enc2 tagRecSig (enc2 (encL pk) (encL digest)))

/-- Model of X25519 public-key derivation (ursa `X25519Sha256`). -/
def xDerivePk (sk : Bytes) : Bytes :=
  packed 32 (enc2 tagXPk (encL sk))

/-- Model of `k256::ecdsa::VerifyingKey::from_sec1_bytes` validity: SEC1
public keys are 33 (compressed) or 65 (uncompressed) bytes.  Point
validity beyond the length is not represented. -/
def sec1Valid (pk : Bytes) : Prop :=
  pk.length = 33 ∨ pk.length = 65

instance (pk : Bytes) : Decidable (sec1Valid pk) := by
  unfold sec1Valid; infer_instance

/-! ## Symbolic AEAD

Model of authenticated encryption with associated data
(`chacha20poly1305::XChaCha20Poly1305` in `src/locked.rs`, ursa's
`Aes256Gcm` in `src/unlocked.rs`).  A sealed payload is a
self-describing byte string framing the cipher identifier, key, nonce and
associated data in front of the message; opening parses the frame and
succeeds exactly when every component matches, which is the symbolic
counterpart of the authentication tag. -/

/-- Length-prefixed frame of a byte string. -/
def frame (xs : Bytes) : Bytes := xs.length :: xs

/-- Read one length-prefixed frame off the front of a byte string. -/
def readFrame : Bytes → Option (Bytes × Bytes)
  | [] => none
  | n :: rest =>
    if n ≤ rest.length then some (rest.take n, rest.drop n) else none

/-- Symbolic AEAD sealing under cipher `c`, key, nonce and associated
data. -/
def aeadSeal (c : Nat) (key nonce aad msg : Bytes) : Bytes :=
  c :: (frame key ++ (frame nonce ++ (frame aad ++ msg)))

/-- Symbolic AEAD opening: parses the frame and checks cipher, key, nonce
and associated data; any mismatch is an authentication failure. -/
def aeadOpen (c : Nat) (key nonce aad : Bytes) : Bytes → Option Bytes
  | [] => none
  | c' :: rest =>
    if c' = c then
      match readFrame rest with
      | none => none
      | some (k, r1) =>
        if k = key then
          match readFrame r1 with
          | none => none
          | some (n, r2) =>
            if n = nonce then
              match readFrame r2 with
              | none => none
              | some (a, msg) => if a = aad then some msg else none
            else none
        else none
    else none

/-! ## Serialization of the wallet

Model of the `serde`/`serde_json` round trip used by `lock`
(serialization of the `UnlockedWallet`) and `unlock`
(`serde_json::from_str`).  The canonical text encoding is opaque to every
claim; it is modelled as a single abstract byte carrying an injective
`encL` package of the wallet's fields, together with a verified parser.
The `std::str::from_utf8` step of `src/locked.rs` is folded into the
parser: `serde_json` output is always valid UTF-8, so in the model the
decoder cannot fail on serializer output, and decoding failure of
corrupted bytes is reported through the parse error. -/

def ktE : KeyType → Nat
  | .JwsVerificationKey2020 => 0
  | .EcdsaSecp256k1VerificationKey2019 => 1
  | .Ed25519VerificationKey2018 => 2
  | .GpgVerificationKey2020 => 3
  | .RsaVerificationKey2018 => 4
  | .X25519KeyAgreementKey2019 => 5
  | .SchnorrSecp256k1VerificationKey2019 => 6
  | .EcdsaSecp256k1RecoveryMethod2020 => 7
  | .Bls12381G1Key2020 => 8
  | .Bls12381G2Key2020 => 9

def ktD : Nat → Option KeyType
  | 0 => some .JwsVerificationKey2020
  | 1 => some .EcdsaSecp256k1VerificationKey2019
  | 2 => some .Ed25519VerificationKey2018
  | 3 => some .GpgVerificationKey2020
  | 4 => some .RsaVerificationKey2018
  | 5 => some .X25519KeyAgreementKey2019
  | 6 => some .SchnorrSecp256k1VerificationKey2019
  | 7 => some .EcdsaSecp256k1RecoveryMethod2020
  | 8 => some .Bls12381G1Key2020
  | 9 => some .Bls12381G2Key2020
  | _ => none

def pkiE (p : PublicKeyInfo) : Nat :=
  encL [encL (p.controller.map encL), ktE p.key_type, encL p.public_key]

def pkiD (n : Nat) : Option PublicKeyInfo :=
  match decL n with
  | [c, t, k] =>
    match ktD t with
    | some kt => some ⟨(decL c).map decL, kt, decL k⟩
    | none => none
  | _ => none

def kpE (k : KeyPair) : Nat :=
  encL [pkiE k.public_key, encL k.private_key]

def kpD (n : Nat) : Option KeyPair :=
  match decL n with
  | [p, s] =>
    match pkiD p with
    | some pki => some ⟨pki, decL s⟩
    | none => none
  | _ => none

def contentE : Content → Nat
  | .Key kp => enc2 0 (kpE kp)
  | .Opaque d => enc2 1 (encL d)

def contentD (n : Nat) : Option Content :=
  match decL n with
  | [0, p] => (kpD p).map Content.Key
  | [1, p] => some (.Opaque (decL p))
  | _ => none

def entryE (e : Bytes × Content) : Nat :=
  encL [encL e.1, contentE e.2]

def entryD (n : Nat) : Option (Bytes × Content) :=
  match decL n with
  | [r, c] => (contentD c).map (fun ct => (decL r, ct))
  | _ => none

/-- Decode every element of a list, failing if any element fails. -/
def decAll (f : Nat → Option α) : List Nat → Option (List α)
  | [] => some []
  | n :: ns =>
    match f n, decAll f ns with
    | some a, some l => some (a :: l)
    | _, _ => none

def walletE (w : UnlockedWallet) : Nat :=
  encL [encL (w.context.map encL), encL w.id,
        encL (w.wallet_type.map encL), encL (w.contents.map entryE)]

def walletD (n : Nat) : Option UnlockedWallet :=
  match decL n with
  | [c, i, t, cs] =>
    match decAll entryD (decL cs) with
    | some entries => some ⟨(decL c).map decL, decL i, (decL t).map decL, entries⟩
    | none => none
  | _ => none

/-- Model of the canonical text encoding of the wallet produced inside
`lock`. -/
def serializeWallet (w : UnlockedWallet) : Bytes := [walletE w]

/-- Model of `std::str::from_utf8` followed by `serde_json::from_str` in
`src/locked.rs`. -/
def parseWallet : Bytes → Option UnlockedWallet
  | [n] => walletD n
  | _ => none

/-! ## Key pair operations

Translated from `src/contents/key_pair.rs`. -/

/-- Decode a fixed-length symbolic byte string produced by
`packed len (enc2 tag m)`, checking length, padding and tag; used to model
point-decoding (`from_bytes`) validity checks of external crates. -/
def packedDec (len tag : Nat) : Bytes → Option Nat
  | [] => none
  | h :: rest =>
    if rest = List.replicate (len - 1) 0 then
      match decL h with
      | [t, m] => if t = tag then some m else none
      | _ => none
    else none

/-- The `KeyPair::new` constructor: deterministic expansion of supplied
secret material (`Ed25519Sha512::expand_keypair`,
`EcdsaSecp256k1Sha256::keypair(FromSecretKey)`,
`X25519Sha256::keypair(FromSecretKey)`); any other variant is
`UnsupportedKeyType`.  The external crates reject secrets that are not 32
bytes; per the repository's own test, the Ed25519 private key is stored
expanded as `seed ‖ public_key`. -/
def KeyPair.new (key_type : KeyType) (priv_key : Bytes) : RRes Error KeyPair :=
  match key_type with
  | .Ed25519VerificationKey2018 =>
    if priv_key.length = 32 then
      .ok ⟨⟨[], key_type, edDerivePk priv_key⟩, priv_key ++ edDerivePk priv_key⟩
    else .err .UrsaCryptoError
  | .EcdsaSecp256k1VerificationKey2019 | .EcdsaSecp256k1RecoveryMethod2020 =>
    if priv_key.length = 32 then
      .ok ⟨⟨[], key_type, secpDerivePk priv_key⟩, priv_key⟩
    else .err .UrsaCryptoError
  | .X25519KeyAgreementKey2019 =>
    if priv_key.length = 32 then
      .ok ⟨⟨[], key_type, xDerivePk priv_key⟩, priv_key⟩
    else .err .UrsaCryptoError
  | _ => .err .UnsupportedKeyType

/-- The `KeyPair::random_pair` constructor; the random draw of the
underlying crate is passed as the explicit seed `rand`. -/
def KeyPair.random_pair (key_type : KeyType) (rand : Nat) : RRes Error KeyPair :=
  match key_type with
  | .X25519KeyAgreementKey2019 =>
    .ok ⟨⟨[], key_type, xDerivePk (randomBytes32 rand)⟩, randomBytes32 rand⟩
  | .Ed25519VerificationKey2018 =>
    .ok ⟨⟨[], key_type, edDerivePk (randomBytes32 rand)⟩,
         randomBytes32 rand ++ edDerivePk (randomBytes32 rand)⟩
  | .EcdsaSecp256k1VerificationKey2019 | .EcdsaSecp256k1RecoveryMethod2020 =>
    .ok ⟨⟨[], key_type, secpDerivePk (randomBytes32 rand)⟩, randomBytes32 rand⟩
  | _ => .err .UnsupportedKeyType

/-- The `KeyPair::sign` dispatcher of `src/contents/key_pair.rs`:

* Ed25519: ursa `Ed25519Sha512::sign` with the 64-byte expanded key
  (seed in the first 32 bytes);
* plain secp256k1: ursa `EcdsaSecp256k1Sha256::sign` with the 32-byte
  scalar;
* recovery variant: `SecretKey::from_slice` (rejects non-32-byte
  scalars, `SecpCryptoError`), Keccak-256 digest of `data`,
  `Message::from_slice` (rejects non-32-byte digests, `SecpCryptoError`),
  `sign_recoverable`, then `serialize_compact` into `r‖s` with the
  recovery byte pushed at the end (the model fixes the recovery id to 0);
* every other variant, including X25519: `WrongKeyType`. -/
def KeyPair.sign (kp : KeyPair) (data : Bytes) : RRes Error Bytes :=
  match kp.public_key.key_type with
  | .Ed25519VerificationKey2018 =>
    if kp.private_key.length = 64 then
      .ok (edSigBytes (edDerivePk (kp.private_key.take 32)) data)
    else .err .UrsaCryptoError
  | .EcdsaSecp256k1VerificationKey2019 =>
    if kp.private_key.length = 32 then
      .ok (secpSigBytes (secpDerivePk kp.private_key) data)
    else .err .UrsaCryptoError
  | .EcdsaSecp256k1RecoveryMethod2020 =>
    if kp.private_key.length = 32 then
      if (keccak256 data).length = 32 then
        .ok (recSigRS (secpDerivePk kp.private_key) (keccak256 data) ++ [0])
      else .err .SecpCryptoError
    else .err .SecpCryptoError
  | _ => .err .WrongKeyType

/-- Model of a BLS12-381 signature in the G1-key convention
(`signature_bls::SignatureVt`, 96 bytes), determined by `(pk, msg)`. -/
def blsSigVtBytes (pk msg : Bytes) : Bytes :=
  packed 96 (enc2 tagBlsSigVt (enc2 (encL pk) (encL msg)))

/-- Model of a BLS12-381 signature in the G2-key convention
(`signature_bls::Signature`, 48 bytes), determined by `(pk, msg)`. -/
def blsSigBytes (pk msg : Bytes) : Bytes :=
  packed 48 (enc2 tagBlsSig (enc2 (encL pk) (encL msg)))

/-- The `PublicKeyInfo::verify` dispatcher of
`src/contents/public_key_info.rs`, branch by branch:

* Ed25519: `ed25519_dalek::PublicKey::from_bytes` (rejects non-32-byte
  keys, wrapped as `Other`), then an explicit signature length check
  (`WrongKeyLength` unless exactly 64), then `verify(...).is_ok()`;
* plain secp256k1: `VerifyingKey::from_sec1_bytes` first, then
  `array_ref!(signature, 0, 32)` / `array_ref!(signature, 32, 32)`
  with **no** length check — a signature shorter than 64 bytes panics
  (`crash`); `Signature::from_scalars` reassembles the first 64 bytes
  (its scalar-range rejection is not represented), then
  `verify(...).is_ok()`;
* recovery variant: the two `array_ref!` slices come first (panic below
  64 bytes), then `from_sec1_bytes`, then
  `recoverable::Signature::from_trial_recovery`, which succeeds exactly
  when the `r‖s` bytes are that key's recoverable signature over the
  Keccak-256 digest of `data` and otherwise returns an error mapped to
  `EcdsaCryptoError`; on success the recovered key equals the held key by
  construction, so the final equality is `true`;
* BLS G1/G2: `array_ref!` on the held public key (48/96 bytes) and on the
  signature (96/48 bytes) with no length checks, and `.unwrap()` on both
  `from_bytes` decodes — short buffers and invalid point encodings panic;
  the message passed to the pairing check is the *signature* byte string
  itself, exactly as in the source (`.verify(pk, signature)`), not `data`;
* every other variant: `WrongKeyType`. -/
def PublicKeyInfo.verify (pki : PublicKeyInfo) (data signature : Bytes) :
    RRes Error Bool :=
  match pki.key_type with
  | .Ed25519VerificationKey2018 =>
    if pki.public_key.length ≠ 32 then .err .Other
    else if signature.length ≠ 64 then .err .WrongKeyLength
    else .ok (decide (signature = edSigBytes pki.public_key data))
  | .EcdsaSecp256k1VerificationKey2019 =>
    if ¬ sec1Valid pki.public_key then .err .EcdsaCryptoError
    else if signature.length < 64 then .crash
    else .ok (decide (signature.take 64 = secpSigBytes pki.public_key data))
  | .EcdsaSecp256k1RecoveryMethod2020 =>
    if signature.length < 64 then .crash
    else if ¬ sec1Valid pki.public_key then .err .EcdsaCryptoError
    else if signature.take 64 = recSigRS pki.public_key (keccak256 data) then
      .ok true
    else .err .EcdsaCryptoError
  | .Bls12381G1Key2020 =>
    if pki.public_key.length < 48 then .crash
    else
      match packedDec 48 tagBlsPkVt (pki.public_key.take 48) with
      | none => .crash
      | some _ =>
        if signature.length < 96 then .crash
        else
          match packedDec 96 tagBlsSigVt (signature.take 96) with
          | none => .crash
          | some _ =>
            .ok (decide (signature.take 96
                  = blsSigVtBytes (pki.public_key.take 48) signature))
  | .Bls12381G2Key2020 =>
    if pki.public_key.length < 96 then .crash
    else
      match packedDec 96 tagBlsPk (pki.public_key.take 96) with
      | none => .crash
      | some _ =>
        if signature.length < 48 then .crash
        else
          match packedDec 48 tagBlsSig (signature.take 48) with
          | none => .crash
          | some _ =>
            .ok (decide (signature.take 48
                  = blsSigBytes (pki.public_key.take 96) signature))
  | _ => .err .WrongKeyType

/-- Model of the sealed-box protocol of §4.3 (`seal_box` in
`src/contents/encryption.rs`, outside the four source files): the
ephemeral key agreement and AEAD are abstracted into one injective
symbolic package bound to the recipient's public key.  No claim depends
on the sealed payload's internal layout. -/
def sealBox (data pk : Bytes) : RRes Error Bytes :=
  .ok [enc2 tagSealedBox (enc2 (encL pk) (encL data))]

/-- Model of `unseal_box`: opening succeeds exactly when the package was
sealed to the public key derived from the supplied secret; anything else
is an AEAD authentication failure. -/
def unsealBox (data _pk sk : Bytes) : RRes Error Bytes :=
  match data with
  | [n] =>
    match decL n with
    | [t, inner] =>
      if t = tagSealedBox then
        match decL inner with
        | [p, m] =>
          if p = encL (xDerivePk sk) then .ok (decL m)
          else .err .AeadCryptoError
        | _ => .err .AeadCryptoError
      else .err .AeadCryptoError
    | _ => .err .AeadCryptoError
  | _ => .err .AeadCryptoError

/-- The `PublicKeyInfo::encrypt` dispatcher of
`src/contents/public_key_info.rs`: only X25519 encrypts; the source
slices `self.public_key[..KEYSIZE]` (`KEYSIZE = 32`) **before** any
length check, so a shorter key panics (the `try_into` whose failure
would be `BoxToSmall` can no longer fail after that slice).  The unused
`_aad` parameter is dropped. -/
def PublicKeyInfo.encrypt (pki : PublicKeyInfo) (data : Bytes) : RRes Error Bytes :=
  match pki.key_type with
  | .X25519KeyAgreementKey2019 =>
    if pki.public_key.length < 32 then .crash
    else sealBox data (pki.public_key.take 32)
  | _ => .err .WrongKeyType

/-- The `KeyPair::decrypt` dispatcher of `src/contents/key_pair.rs`: only
X25519 decrypts, through `unseal_box`; the `_aad` parameter is unused in
the source. -/
def KeyPair.decrypt (kp : KeyPair) (data _aad : Bytes) : RRes Error Bytes :=
  match kp.public_key.key_type with
  | .X25519KeyAgreementKey2019 =>
    unsealBox data kp.public_key.public_key kp.private_key
  | _ => .err .WrongKeyType

/-- Modelled from the spec: `KeyPair::verify` is called by
`src/unlocked.rs` but not defined in the four source files; per §4.2
verification needs only the public part, so it delegates to
`PublicKeyInfo::verify` on the pair's public key. -/
def KeyPair.verify (kp : KeyPair) (data signature : Bytes) : RRes Error Bool :=
  kp.public_key.verify data signature

/-! ## Wallet operations

Translated from `src/unlocked.rs` and `src/locked.rs`.  The file
`src/unlocked.rs` does not compile as committed (`pub impl`, a
`Result<Vec<u8>, 'str>` return type, `Result` error types mixing `String`
and `Error`, and a `LockedWallet { encrypted_data: ... }` initializer for
a struct whose fields are `id` and `ciphertext`); the embedding keeps its
evident control flow and records each slip in the relevant doc
comment. -/

/-- The error type of the wallet operations in `src/unlocked.rs`: the
string errors `"no key found"` and `"incorrect content type"`, and the
wrapped error of the underlying key operation. -/
inductive WErr where
  | noKeyFound
  | incorrectContentType
  | keyErr (e : Error)
  deriving DecidableEq

/-- Lift a key-operation outcome into a wallet-operation outcome. -/
def liftK : RRes Error α → RRes WErr α
  | .ok a => .ok a
  | .err e => .err (.keyErr e)
  | .crash => .crash

/-- Association-list lookup in the wallet's content map. -/
def lookupC : List (Bytes × Content) → Bytes → Option Content
  | [], _ => none
  | e :: rest, r => if e.1 = r then some e.2 else lookupC rest r

/-- Modelled from the spec: `get_content` is called by `sign_raw` in
`src/unlocked.rs` but not defined in the four source files; per §4.5 the
content lookup maps the reference to the entry of the content map, and
the other two operations use `self.contents.get(key_ref)` directly, so
both are the same map lookup. -/
def UnlockedWallet.get_content (w : UnlockedWallet) (ref : Bytes) : Option Content :=
  lookupC w.contents ref

/-- The `sign_raw` wallet operation of `src/unlocked.rs`. -/
def UnlockedWallet.sign_raw (w : UnlockedWallet) (data key_ref : Bytes) :
    RRes WErr Bytes :=
  match w.get_content key_ref with
  | some (.Key k) => liftK (k.sign data)
  | some _ => .err .incorrectContentType
  | none => .err .noKeyFound

/-- The `verify_raw` wallet operation of `src/unlocked.rs`. -/
def UnlockedWallet.verify_raw (w : UnlockedWallet) (data key_ref signature : Bytes) :
    RRes WErr Bool :=
  match lookupC w.contents key_ref with
  | some (.Key k) => liftK (k.verify data signature)
  | some _ => .err .incorrectContentType
  | none => .err .noKeyFound

/-- The `decrypt` wallet operation of `src/unlocked.rs` (the source calls
`k.decrypt(data)`; the unused associated-data argument is passed
empty). -/
def UnlockedWallet.decrypt (w : UnlockedWallet) (data key_ref : Bytes) :
    RRes WErr Bytes :=
  match lookupC w.contents key_ref with
  | some (.Key k) => liftK (k.decrypt data [])
  | some _ => .err .incorrectContentType
  | none => .err .noKeyFound

/-- Model of ursa's `SymmetricEncryptor::encrypt_easy(aad, msg)`: seals
under the encryptor's key with a fresh random nonce and returns the nonce
prepended to the sealed payload. -/
def aesEncryptEasy (key nonce aad msg : Bytes) : Bytes :=
  nonce ++ aeadSeal cipherAes key nonce aad msg

/-- The `lock` operation of `src/unlocked.rs`, as committed: it hashes the
password with SHA3-256 but never uses the digest (`pass` is dead), builds
`SymmetricEncryptor::<Aes256Gcm>::default()` — an encryptor under a
**fresh random AES-256-GCM key** (`aesKey`), not the password-derived
key — and stores `encrypt_easy(self.id, self)`, whose random nonce
(`aesNonce`) is prepended, not appended.  The initializer writes an
`encrypted_data` field that `LockedWallet` does not have; the embedding
stores the payload in `ciphertext` and keeps the wallet's id.  The
source's error path (`map_err(|e| e.to_string())`) is unreachable in the
model. -/
def UnlockedWallet.lock (w : UnlockedWallet) (key aesKey aesNonce : Bytes) :
    RRes Error LockedWallet :=
  let _pass := sha3_256 key
  .ok ⟨w.id, aesEncryptEasy aesKey aesNonce w.id (serializeWallet w)⟩

/-- The `unlock` operation of `src/locked.rs`: derive the key as SHA3-256
of the password, split the ciphertext at `len - 24` (the `usize`
subtraction underflows and the slice is out of bounds when the ciphertext
is shorter than 24 bytes — a panic, embedded as `crash`), open the
XChaCha20-Poly1305 payload with the trailing 24 bytes as nonce
(authentication failure is `AeadCryptoError`), and parse the plaintext
back into a wallet (failure is the parse error `Serde`; the
`str::from_utf8` step is folded into the parser, see
`parseWallet`). -/
def LockedWallet.unlock (lw : LockedWallet) (key : Bytes) :
    RRes Error UnlockedWallet :=
  let pass := sha3_256 key
  if lw.ciphertext.length < 24 then .crash
  else
    let nonce_start := lw.ciphertext.length - 24
    let nonce := lw.ciphertext.drop nonce_start
    let content := lw.ciphertext.take nonce_start
    match aeadOpen cipherXCha pass nonce [] content with
    | some dec =>
      match parseWallet dec with
      | some w => .ok w
      | none => .err .Serde
    | none => .err .AeadCryptoError

/-! ## Concrete sample values

Used by the closed evaluation theorems and witnesses. -/

/-- A small concrete wallet (id `[7]`, empty content map). -/
def sampleWallet : UnlockedWallet := ⟨[], [7], [], []⟩

/-- A concrete 32-byte AES key stand-in for the random key drawn by
`SymmetricEncryptor::<Aes256Gcm>::default()`. -/
def sampleAesKey : Bytes := List.replicate 32 0

/-- A concrete 12-byte AES-GCM nonce stand-in for the random nonce drawn
by `encrypt_easy`. -/
def sampleAesNonce : Bytes := List.replicate 12 0

/-- A concrete 24-byte XChaCha20-Poly1305 nonce. -/
def nonce24 : Bytes := List.replicate 24 0

/-- A concrete recovery-variant key pair (as produced by
`KeyPair::random_pair`). -/
def sampleRecKeyPair : KeyPair :=
  ⟨⟨[], .EcdsaSecp256k1RecoveryMethod2020, secpDerivePk (randomBytes32 0)⟩,
   randomBytes32 0⟩

/-- A concrete wallet whose content map has a non-key entry at `[1]` and a
key entry at `[2]`. -/
def sampleLookupWallet : UnlockedWallet :=
  ⟨[], [8], [], [([1], .Opaque [9]), ([2], .Key sampleRecKeyPair)]⟩

/-! ## Supporting lemmas -/

theorem unBits_natBits : ∀ fuel n, n ≤ fuel → unBits (natBits fuel n) = n := by
  intro fuel
  induction fuel with
  | zero => intro n h; interval_cases n; simp [natBits, unBits]
  | succ f ih =>
    intro n h
    by_cases hn : n = 0
    · simp [natBits, hn, unBits]
    · have hlt : n / 2 < n := Nat.div_lt_self (Nat.pos_of_ne_zero hn) (by omega)
      have hle : n / 2 ≤ f := by omega
      simp only [natBits, hn, if_false, unBits, ih _ hle]
      omega

theorem natBits_lt_two : ∀ fuel n d, d ∈ natBits fuel n → d < 2 := by
  intro fuel
  induction fuel with
  | zero => intro n d h; simp [natBits] at h
  | succ f ih =>
    intro n d h
    by_cases hn : n = 0
    · simp [natBits, hn] at h
    · simp only [natBits, hn, if_false, List.mem_cons] at h
      rcases h with h | h
      · subst h; exact Nat.mod_lt _ (by omega)
      · exact ih _ _ h

theorem bitsOf_lt_two (n d : Nat) (h : d ∈ bitsOf n) : d < 2 :=
  natBits_lt_two n n d h

theorem unBits_bitsOf (n : Nat) : unBits (bitsOf n) = n :=
  unBits_natBits n n (Nat.le_refl n)

theorem goodD_append_bits :
    ∀ g rest, (∀ d ∈ g, d < 2) → goodD rest → rest ≠ [] →
      goodD (g ++ rest) := by
  intro g
  induction g with
  | nil => intro rest _ h _; simpa using h
  | cons d g ih =>
    intro rest hg hrest hne
    refine ⟨by have := hg d (by simp); omega, ?_, ?_⟩
    · intro hemp
      exact absurd (List.append_eq_nil.mp hemp).2 hne
    · exact ih rest (fun x hx => hg x (by simp [hx])) hrest hne

theorem goodD_encDigits : ∀ l, goodD (encDigits l) := by
  intro l
  induction l with
  | nil => simp [encDigits, goodD]
  | cons x xs ih =>
    have hstep : encDigits (x :: xs) = bitsOf x ++ 2 :: encDigits xs := by
      simp [encDigits]
    rw [hstep]
    refine goodD_append_bits _ _ (fun d hd => bitsOf_lt_two x d hd) ?_ (by simp)
    exact ⟨by omega, fun _ => by omega, ih⟩

theorem unDigits3_pos_of_goodD :
    ∀ ds, goodD ds → ds ≠ [] → 1 ≤ unDigits3 ds := by
  intro ds
  induction ds with
  | nil => intro _ h; exact absurd rfl h
  | cons d ds ih =>
    intro hg _
    rcases hg with ⟨hd3, hlast, hg⟩
    by_cases hds : ds = []
    · subst hds
      have : d ≠ 0 := hlast rfl
      simp [unDigits3]; omega
    · have := ih hg hds
      simp [unDigits3]; omega

theorem digits3_unDigits3 :
    ∀ ds, goodD ds → ∀ fuel, unDigits3 ds ≤ fuel →
      digits3 fuel (unDigits3 ds) = ds := by
  intro ds
  induction ds with
  | nil =>
    intro _ fuel _
    cases fuel <;> simp [digits3, unDigits3]
  | cons d ds ih =>
    intro hg fuel hfuel
    rcases hg with ⟨hd3, hlast, hg⟩
    have hpos : 1 ≤ d + 3 * unDigits3 ds := by
      by_cases hds : ds = []
      · have : d ≠ 0 := hlast hds; omega
      · have := unDigits3_pos_of_goodD ds hg hds; omega
    have hn : unDigits3 (d :: ds) = d + 3 * unDigits3 ds := rfl
    rw [hn] at hfuel ⊢
    obtain ⟨f, rfl⟩ : ∃ f, fuel = f + 1 := by
      cases fuel with
      | zero => omega
      | succ f => exact ⟨f, rfl⟩
    have hne : d + 3 * unDigits3 ds ≠ 0 := by omega
    have hmod : (d + 3 * unDigits3 ds) % 3 = d := by omega
    have hdiv : (d + 3 * unDigits3 ds) / 3 = unDigits3 ds := by omega
    simp only [digits3, hne, if_false, hmod, hdiv]
    congr 1
    refine ih hg f ?_
    by_cases hds : ds = []
    · subst hds; simp [unDigits3]
    · have := unDigits3_pos_of_goodD ds hg hds
      omega

theorem takeGroup_append :
    ∀ g rest, (∀ d ∈ g, d ≠ 2) → takeGroup (g ++ 2 :: rest) = (g, rest) := by
  intro g
  induction g with
  | nil => intro rest _; simp [takeGroup]
  | cons d g ih =>
    intro rest hg
    have hd : d ≠ 2 := hg d (by simp)
    simp only [List.cons_append, takeGroup, hd, if_false, List.append_eq]
    rw [ih rest (fun x hx => hg x (by simp [hx]))]

theorem groupsAux_encDigits :
    ∀ l fuel, l.length ≤ fuel → groupsAux fuel (encDigits l) = l := by
  intro l
  induction l with
  | nil =>
    intro fuel _
    cases fuel <;> simp [groupsAux, encDigits]
  | cons x xs ih =>
    intro fuel hfuel
    obtain ⟨f, rfl⟩ : ∃ f, fuel = f + 1 := by
      cases fuel with
      | zero => simp at hfuel
      | succ f => exact ⟨f, rfl⟩
    have hstep : encDigits (x :: xs) = bitsOf x ++ 2 :: encDigits xs := by
      simp [encDigits]
    have hne : (bitsOf x ++ 2 :: encDigits xs).isEmpty = false := by
      cases h : bitsOf x <;> simp [h]
    have htg : takeGroup (bitsOf x ++ 2 :: encDigits xs) = (bitsOf x, encDigits xs) :=
      takeGroup_append _ _ (fun d hd => by have := bitsOf_lt_two x d hd; omega)
    simp only [hstep, groupsAux, hne, Bool.false_eq_true, if_false, htg]
    rw [unBits_bitsOf]
    congr 1
    exact ih f (by simpa using Nat.le_of_succ_le_succ hfuel)

theorem length_le_length_encDigits :
    ∀ l : List Nat, l.length ≤ (encDigits l).length := by
  intro l
  induction l with
  | nil => simp [encDigits]
  | cons x xs ih =>
    have hstep : encDigits (x :: xs) = bitsOf x ++ 2 :: encDigits xs := by
      simp [encDigits]
    rw [hstep]
    simp only [List.length_append, List.length_cons]
    omega

theorem decL_encL (l : List Nat) : decL (encL l) = l := by
  have hdig : digits3 (encL l) (encL l) = encDigits l :=
    digits3_unDigits3 (encDigits l) (goodD_encDigits l) (encL l) (Nat.le_refl _)
  unfold decL
  rw [hdig]
  exact groupsAux_encDigits l _ (length_le_length_encDigits l)

theorem encL_inj : Function.Injective encL := by
  intro a b h
  have := congrArg decL h
  rwa [decL_encL, decL_encL] at this

theorem enc2_inj {a b a' b' : Nat} (h : enc2 a b = enc2 a' b') :
    a = a' ∧ b = b' := by
  have := encL_inj h
  simp at this
  exact this

theorem packed_length (len payload : Nat) (h : 1 ≤ len) :
    (packed len payload).length = len := by
  simp [packed]; omega

theorem packed_inj {len p q : Nat} (h : packed len p = packed len q) : p = q := by
  simpa [packed] using h

theorem sha3_256_inj {a b : Bytes} (h : sha3_256 a = sha3_256 b) : a = b := by
  have h1 := packed_inj h
  have h2 := (enc2_inj h1).2
  exact encL_inj h2

theorem sha3_256_length (input : Bytes) : (sha3_256 input).length = 32 :=
  packed_length _ _ (by omega)

theorem keccak256_length (input : Bytes) : (keccak256 input).length = 32 :=
  packed_length _ _ (by omega)

theorem readFrame_frame (xs rest : Bytes) :
    readFrame (frame xs ++ rest) = some (xs, rest) := by
  simp [frame, readFrame, List.take_left, List.drop_left]

theorem aeadOpen_seal (c : Nat) (key nonce aad msg : Bytes) :
    aeadOpen c key nonce aad (aeadSeal c key nonce aad msg) = some msg := by
  simp [aeadSeal, aeadOpen, readFrame_frame]

theorem aeadOpen_wrong_key (c : Nat) (key key' nonce aad msg : Bytes)
    (h : key' ≠ key) :
    aeadOpen c key' nonce aad (aeadSeal c key nonce aad msg) = none := by
  have h' : key ≠ key' := fun hh => h hh.symm
  simp [aeadSeal, aeadOpen, readFrame_frame, h']

theorem aeadSeal_length (c : Nat) (key nonce aad msg : Bytes) :
    (aeadSeal c key nonce aad msg).length
      = 4 + key.length + nonce.length + aad.length + msg.length := by
  simp [aeadSeal, frame]
  omega

theorem map_decL_map_encL (l : List Bytes) :
    (l.map encL).map decL = l := by
  rw [List.map_map]
  have : (decL ∘ encL) = id := funext decL_encL
  simp [this]

theorem map_comp_decL_encL (l : List Bytes) : List.map (decL ∘ encL) l = l := by
  rw [← List.map_map]
  exact map_decL_map_encL l

theorem ktD_ktE (kt : KeyType) : ktD (ktE kt) = some kt := by
  cases kt <;> rfl

theorem pkiD_pkiE (p : PublicKeyInfo) : pkiD (pkiE p) = some p := by
  unfold pkiD pkiE
  rw [decL_encL]
  simp [ktD_ktE, decL_encL, map_decL_map_encL, map_comp_decL_encL]

theorem kpD_kpE (k : KeyPair) : kpD (kpE k) = some k := by
  unfold kpD kpE
  rw [decL_encL]
  simp [pkiD_pkiE, decL_encL]

theorem contentD_contentE (c : Content) : contentD (contentE c) = some c := by
  cases c with
  | Key kp =>
    unfold contentD contentE enc2
    rw [decL_encL]
    simp [kpD_kpE]
  | Opaque d =>
    unfold contentD contentE enc2
    rw [decL_encL]
    simp [decL_encL]

theorem entryD_entryE (e : Bytes × Content) : entryD (entryE e) = some e := by
  unfold entryD entryE
  rw [decL_encL]
  simp [contentD_contentE, decL_encL]

theorem decAll_map {α : Type} (f : Nat → Option α) (g : α → Nat) (l : List α)
    (h : ∀ x ∈ l, f (g x) = some x) :
    decAll f (l.map g) = some l := by
  induction l with
  | nil => rfl
  | cons x xs ih =>
    simp only [List.map_cons, decAll, h x (by simp),
      ih (fun y hy => h y (by simp [hy]))]

theorem walletD_walletE (w : UnlockedWallet) : walletD (walletE w) = some w := by
  unfold walletD walletE
  rw [decL_encL]
  simp only [decL_encL]
  rw [decAll_map entryD entryE w.contents (fun e _ => entryD_entryE e)]
  simp [map_decL_map_encL, map_comp_decL_encL]

theorem parseWallet_serializeWallet (w : UnlockedWallet) :
    parseWallet (serializeWallet w) = some w := by
  simp [parseWallet, serializeWallet, walletD_walletE]

theorem packedDec_packed (len tag m : Nat) :
    packedDec len tag (packed len (enc2 tag m)) = some m := by
  simp [packedDec, packed, enc2, decL_encL]

theorem randomBytes32_length (rand : Nat) : (randomBytes32 rand).length = 32 :=
  packed_length _ _ (by omega)

theorem edDerivePk_length (s : Bytes) : (edDerivePk s).length = 32 :=
  packed_length _ _ (by omega)

theorem secpDerivePk_length (s : Bytes) : (secpDerivePk s).length = 33 :=
  packed_length _ _ (by omega)

theorem xDerivePk_length (s : Bytes) : (xDerivePk s).length = 32 :=
  packed_length _ _ (by omega)

theorem edSigBytes_length (pk d : Bytes) : (edSigBytes pk d).length = 64 :=
  packed_length _ _ (by omega)

theorem secpSigBytes_length (pk d : Bytes) : (secpSigBytes pk d).length = 64 :=
  packed_length _ _ (by omega)

theorem recSigRS_length (pk d : Bytes) : (recSigRS pk d).length = 64 :=
  packed_length _ _ (by omega)

theorem packed2_inj {L t a b a' b' : Nat}
    (h : packed L (enc2 t (enc2 a b)) = packed L (enc2 t (enc2 a' b'))) :
    a = a' ∧ b = b' := by
  have h1 := packed_inj h
  have h2 := (enc2_inj h1).2
  exact enc2_inj h2

theorem edSigBytes_inj {pk d pk' d' : Bytes}
    (h : edSigBytes pk d = edSigBytes pk' d') : pk = pk' ∧ d = d' := by
  obtain ⟨h1, h2⟩ := packed2_inj h
  exact ⟨encL_inj h1, encL_inj h2⟩

theorem secpSigBytes_inj {pk d pk' d' : Bytes}
    (h : secpSigBytes pk d = secpSigBytes pk' d') : pk = pk' ∧ d = d' := by
  obtain ⟨h1, h2⟩ := packed2_inj h
  exact ⟨encL_inj h1, encL_inj h2⟩

theorem recSigRS_inj {pk d pk' d' : Bytes}
    (h : recSigRS pk d = recSigRS pk' d') : pk = pk' ∧ d = d' := by
  obtain ⟨h1, h2⟩ := packed2_inj h
  exact ⟨encL_inj h1, encL_inj h2⟩

theorem keccak256_inj {a b : Bytes} (h : keccak256 a = keccak256 b) : a = b := by
  have h1 := packed_inj h
  have h2 := (enc2_inj h1).2
  exact encL_inj h2

/-- Evaluation of `unlock` on a ciphertext of the shape
`sealed_payload ++ nonce` with a 24-byte nonce: the split isolates
exactly the sealed payload and the trailing nonce. -/
theorem unlock_eval (lid pw keyUsed nonce msg : Bytes) (hn : nonce.length = 24) :
    (LockedWallet.mk lid (aeadSeal cipherXCha keyUsed nonce [] msg ++ nonce)).unlock pw
      = match aeadOpen cipherXCha (sha3_256 pw) nonce []
                (aeadSeal cipherXCha keyUsed nonce [] msg) with
        | some dec =>
          match parseWallet dec with
          | some w => .ok w
          | none => .err .Serde
        | none => .err .AeadCryptoError := by
  have hlen : (aeadSeal cipherXCha keyUsed nonce [] msg ++ nonce).length
      = (aeadSeal cipherXCha keyUsed nonce [] msg).length + 24 := by
    simp [List.length_append, hn]
  have hge : ¬ (aeadSeal cipherXCha keyUsed nonce [] msg ++ nonce).length < 24 := by
    omega
  have hsub : (aeadSeal cipherXCha keyUsed nonce [] msg ++ nonce).length - 24
      = (aeadSeal cipherXCha keyUsed nonce [] msg).length := by omega
  unfold LockedWallet.unlock
  simp only [hge, if_false, hsub, List.take_left, List.drop_left]

/-! ## Claim theorems -/

/-- C1: the claim states that unlocking `lock(password)` with the same
password returns the original wallet.  On the committed code it does not:
`lock` discards the SHA3-derived key and seals with a fresh random
AES-256-GCM key via `encrypt_easy` (nonce at the head), so `unlock` —
which expects an XChaCha20-Poly1305 payload under the SHA3 key with the
nonce in the trailing 24 bytes — fails with the decryption error even for
the correct password.  Evaluated here at a concrete wallet, password and
random draws. -/
theorem lock_unlock_same_password_fails :
    (match sampleWallet.lock [1] sampleAesKey sampleAesNonce with
     | .ok lw => lw.unlock [1]
     | .err e => .err e
     | .crash => .crash) = .err .AeadCryptoError := by decide

/-- C2: the claim describes `lock` as sealing the serialized wallet under
XChaCha20-Poly1305 with the SHA3-256 password key and a fresh 24-byte
nonce appended at the tail.  The committed `lock` instead returns the
`encrypt_easy` output: random-key AES-256-GCM with the nonce prepended —
it differs from every ciphertext of the claimed layout (the two layouts
already have different lengths). -/
theorem lock_aes_random_key_nonce_at_head (nonce : Bytes) (hn : nonce.length = 24) :
    sampleWallet.lock [1] sampleAesKey sampleAesNonce
      = .ok ⟨[7], aesEncryptEasy sampleAesKey sampleAesNonce [7]
                    (serializeWallet sampleWallet)⟩
    ∧ aesEncryptEasy sampleAesKey sampleAesNonce [7] (serializeWallet sampleWallet)
      ≠ aeadSeal cipherXCha (sha3_256 [1]) nonce [] (serializeWallet sampleWallet)
          ++ nonce := by
  refine ⟨rfl, fun h => ?_⟩
  have hlen := congrArg List.length h
  simp only [aesEncryptEasy, List.length_append, aeadSeal_length,
    sha3_256_length, hn, serializeWallet, List.length_singleton,
    sampleAesKey, sampleAesNonce, List.length_replicate,
    List.length_nil] at hlen
  omega

/-- Witness for C2 at the concrete 24-byte nonce. -/
theorem lock_aes_random_key_nonce_at_head_witness :
    sampleWallet.lock [1] sampleAesKey sampleAesNonce
      = .ok ⟨[7], aesEncryptEasy sampleAesKey sampleAesNonce [7]
                    (serializeWallet sampleWallet)⟩
    ∧ aesEncryptEasy sampleAesKey sampleAesNonce [7] (serializeWallet sampleWallet)
      ≠ aeadSeal cipherXCha (sha3_256 [1]) nonce24 [] (serializeWallet sampleWallet)
          ++ nonce24 :=
  lock_aes_random_key_nonce_at_head nonce24 (by decide)

/-- C3: `unlock` derives the key as SHA3-256 of the password, splits the
stored ciphertext into payload and trailing 24-byte nonce, opens the
AEAD payload — authentication failure (in particular any different
password) is the dedicated decryption error — and parses the plaintext
back into the wallet, a parse failure being the distinct `Serde`
error. -/
theorem unlock_key_derivation_split_and_errors (w : UnlockedWallet)
    (lid pw pw' nonce junk : Bytes) (hn : nonce.length = 24) (hpw : pw' ≠ pw)
    (hjunk : parseWallet junk = none) :
    (LockedWallet.mk lid (aeadSeal cipherXCha (sha3_256 pw) nonce []
        (serializeWallet w) ++ nonce)).unlock pw = .ok w
    ∧ (LockedWallet.mk lid (aeadSeal cipherXCha (sha3_256 pw) nonce []
        (serializeWallet w) ++ nonce)).unlock pw' = .err .AeadCryptoError
    ∧ (LockedWallet.mk lid (aeadSeal cipherXCha (sha3_256 pw) nonce []
        junk ++ nonce)).unlock pw = .err .Serde := by
  refine ⟨?_, ?_, ?_⟩
  · rw [unlock_eval _ _ _ _ _ hn]
    simp [aeadOpen_seal, parseWallet_serializeWallet]
  · rw [unlock_eval _ _ _ _ _ hn]
    rw [aeadOpen_wrong_key _ _ _ _ _ _ (fun hh => hpw (sha3_256_inj hh))]
  · rw [unlock_eval _ _ _ _ _ hn]
    simp [aeadOpen_seal, hjunk]

/-- Witness for C3 at a concrete wallet, passwords, nonce and corrupted
plaintext. -/
theorem unlock_key_derivation_split_and_errors_witness :
    (LockedWallet.mk [7] (aeadSeal cipherXCha (sha3_256 [1]) nonce24 []
        (serializeWallet sampleWallet) ++ nonce24)).unlock [1] = .ok sampleWallet
    ∧ (LockedWallet.mk [7] (aeadSeal cipherXCha (sha3_256 [1]) nonce24 []
        (serializeWallet sampleWallet) ++ nonce24)).unlock [2] = .err .AeadCryptoError
    ∧ (LockedWallet.mk [7] (aeadSeal cipherXCha (sha3_256 [1]) nonce24 []
        [] ++ nonce24)).unlock [1] = .err .Serde :=
  unlock_key_derivation_split_and_errors sampleWallet [7] [1] [2] nonce24 []
    (by decide) (by decide) (by decide)

/-- C10: `unlock` computes `ciphertext.len() - 24` and slices there, so
any ciphertext shorter than 24 bytes panics (unsigned underflow /
out-of-bounds slice) instead of returning a typed error. -/
theorem unlock_short_ciphertext_panics (lw : LockedWallet) (pw : Bytes)
    (h : lw.ciphertext.length < 24) : lw.unlock pw = .crash := by
  unfold LockedWallet.unlock
  simp [h]

/-- Witness for C10 at the empty ciphertext. -/
theorem unlock_short_ciphertext_panics_witness :
    (LockedWallet.mk [] []).ciphertext.length < 24
    ∧ (LockedWallet.mk [] []).unlock [1] = .crash :=
  ⟨by decide, unlock_short_ciphertext_panics (LockedWallet.mk [] []) [1] (by decide)⟩

/-- C4: for every key type supporting both fresh generation and signing
(Ed25519 and the two secp256k1 variants — X25519 has no signing
capability and the remaining types support no operation), every random
draw and every non-empty data, `verify(data, sign(data))` on the
generated pair returns `Ok(true)`. -/
theorem sign_verify_roundtrip (kt : KeyType)
    (hkt : kt = .Ed25519VerificationKey2018
      ∨ kt = .EcdsaSecp256k1VerificationKey2019
      ∨ kt = .EcdsaSecp256k1RecoveryMethod2020)
    (rand : Nat) (data : Bytes) (_hdata : data ≠ []) :
    ∃ kp sig, KeyPair.random_pair kt rand = .ok kp ∧ kp.sign data = .ok sig
      ∧ kp.public_key.verify data sig = .ok true := by
  rcases hkt with h | h | h <;> subst h
  · refine ⟨_, edSigBytes (edDerivePk (randomBytes32 rand)) data, rfl, ?_, ?_⟩
    · have hlen : (randomBytes32 rand ++ edDerivePk (randomBytes32 rand)).length = 64 := by
        simp [randomBytes32_length, edDerivePk_length]
      have htake : (randomBytes32 rand ++ edDerivePk (randomBytes32 rand)).take 32
          = randomBytes32 rand := List.take_left' (randomBytes32_length rand)
      simp [KeyPair.sign, hlen, htake]
    · simp [PublicKeyInfo.verify, edDerivePk_length, edSigBytes_length]
  · refine ⟨_, secpSigBytes (secpDerivePk (randomBytes32 rand)) data, rfl, ?_, ?_⟩
    · simp [KeyPair.sign, randomBytes32_length]
    · have h33 : sec1Valid (secpDerivePk (randomBytes32 rand)) :=
        Or.inl (secpDerivePk_length _)
      have hlen := secpSigBytes_length (secpDerivePk (randomBytes32 rand)) data
      have htake : (secpSigBytes (secpDerivePk (randomBytes32 rand)) data).take 64
          = secpSigBytes (secpDerivePk (randomBytes32 rand)) data := by
        rw [← hlen, List.take_length]
      simp [PublicKeyInfo.verify, h33, hlen, htake]
  · refine ⟨_, recSigRS (secpDerivePk (randomBytes32 rand)) (keccak256 data) ++ [0],
      rfl, ?_, ?_⟩
    · simp [KeyPair.sign, randomBytes32_length, keccak256_length]
    · have h33 : sec1Valid (secpDerivePk (randomBytes32 rand)) :=
        Or.inl (secpDerivePk_length _)
      have hlen : (recSigRS (secpDerivePk (randomBytes32 rand)) (keccak256 data)
          ++ [0]).length = 65 := by
        simp [recSigRS_length]
      have htake : (recSigRS (secpDerivePk (randomBytes32 rand)) (keccak256 data)
          ++ [0]).take 64 = recSigRS (secpDerivePk (randomBytes32 rand)) (keccak256 data) :=
        List.take_left' (recSigRS_length _ _)
      simp [PublicKeyInfo.verify, h33, hlen, htake]

/-- Witness for C4: the Ed25519 round trip at a concrete draw and
data. -/
theorem sign_verify_roundtrip_witness :
    ∃ kp sig, KeyPair.random_pair .Ed25519VerificationKey2018 0 = .ok kp
      ∧ kp.sign [1] = .ok sig ∧ kp.public_key.verify [1] sig = .ok true :=
  sign_verify_roundtrip .Ed25519VerificationKey2018 (Or.inl rfl) 0 [1] (by decide)

/-- C5 counterexample: the claim states that a signature whose length
does not match the key type's fixed size makes `verify` return an error.
On the plain secp256k1 branch the committed code slices
`array_ref!(signature, 0, 32)` without any length check, so an empty
signature panics instead of returning an error (the held key here is a
well-formed generated public key, so the earlier `from_sec1_bytes` step
succeeds). -/
theorem verify_short_sig_panics_not_error :
    (PublicKeyInfo.mk [] .EcdsaSecp256k1VerificationKey2019
      (secpDerivePk (randomBytes32 0))).verify [1] [] = .crash := by decide

/-- C5 amended: only the Ed25519 branch turns a wrong-length signature
into `WrongKeyLength`; the secp256k1 branches panic on signatures
shorter than 64 bytes, and the BLS branches panic on signatures shorter
than their fixed sizes; a well-formed non-matching signature yields
`Ok(false)` on the Ed25519 and plain-secp256k1 branches but an error
(not `Ok(false)`) on the recovery branch, whose trial recovery fails. -/
theorem verify_length_and_mismatch_semantics :
    (∀ pk data sig : Bytes, pk.length = 32 → sig.length ≠ 64 →
      (PublicKeyInfo.mk [] .Ed25519VerificationKey2018 pk).verify data sig
        = .err .WrongKeyLength)
    ∧ (∀ pk pk' data data' : Bytes, pk.length = 32 →
        (pk' ≠ pk ∨ data' ≠ data) →
        (PublicKeyInfo.mk [] .Ed25519VerificationKey2018 pk).verify data
          (edSigBytes pk' data') = .ok false)
    ∧ (∀ pk data sig : Bytes, sec1Valid pk → sig.length < 64 →
        (PublicKeyInfo.mk [] .EcdsaSecp256k1VerificationKey2019 pk).verify data sig
          = .crash)
    ∧ (∀ pk pk' data data' : Bytes, sec1Valid pk →
        (pk' ≠ pk ∨ data' ≠ data) →
        (PublicKeyInfo.mk [] .EcdsaSecp256k1VerificationKey2019 pk).verify data
          (secpSigBytes pk' data') = .ok false)
    ∧ (∀ pk data sig : Bytes, sig.length < 64 →
        (PublicKeyInfo.mk [] .EcdsaSecp256k1RecoveryMethod2020 pk).verify data sig
          = .crash)
    ∧ (∀ pk pk' data data' : Bytes, sec1Valid pk →
        (pk' ≠ pk ∨ data' ≠ data) →
        (PublicKeyInfo.mk [] .EcdsaSecp256k1RecoveryMethod2020 pk).verify data
          (recSigRS pk' (keccak256 data') ++ [0]) = .err .EcdsaCryptoError)
    ∧ (∀ m : Nat, ∀ data sig : Bytes, sig.length < 96 →
        (PublicKeyInfo.mk [] .Bls12381G1Key2020
          (packed 48 (enc2 tagBlsPkVt m))).verify data sig = .crash)
    ∧ (∀ m : Nat, ∀ data sig : Bytes, sig.length < 48 →
        (PublicKeyInfo.mk [] .Bls12381G2Key2020
          (packed 96 (enc2 tagBlsPk m))).verify data sig = .crash) := by
  refine ⟨?_, ?_, ?_, ?_, ?_, ?_, ?_, ?_⟩
  · intro pk data sig h32 h64
    simp [PublicKeyInfo.verify, h32, h64]
  · intro pk pk' data data' h32 hmis
    have hne : edSigBytes pk' data' ≠ edSigBytes pk data := by
      intro hh
      obtain ⟨he1, he2⟩ := edSigBytes_inj hh
      rcases hmis with hm | hm
      · exact hm he1
      · exact hm he2
    simp [PublicKeyInfo.verify, h32, edSigBytes_length, hne]
  · intro pk data sig hv hlen
    simp [PublicKeyInfo.verify, hv, hlen]
  · intro pk pk' data data' hv hmis
    have hlen := secpSigBytes_length pk' data'
    have htake : (secpSigBytes pk' data').take 64 = secpSigBytes pk' data' := by
      rw [← hlen, List.take_length]
    have hne : secpSigBytes pk' data' ≠ secpSigBytes pk data := by
      intro hh
      obtain ⟨he1, he2⟩ := secpSigBytes_inj hh
      rcases hmis with hm | hm
      · exact hm he1
      · exact hm he2
    simp [PublicKeyInfo.verify, hv, hlen, htake, hne]
  · intro pk data sig hlen
    simp [PublicKeyInfo.verify, hlen]
  · intro pk pk' data data' hv hmis
    have hlen : (recSigRS pk' (keccak256 data') ++ [0]).length = 65 := by
      simp [recSigRS_length]
    have htake : (recSigRS pk' (keccak256 data') ++ [0]).take 64
        = recSigRS pk' (keccak256 data') := List.take_left' (recSigRS_length _ _)
    have hne : recSigRS pk' (keccak256 data') ≠ recSigRS pk (keccak256 data) := by
      intro hh
      obtain ⟨he1, he2⟩ := recSigRS_inj hh
      rcases hmis with hm | hm
      · exact hm he1
      · exact hm (keccak256_inj he2)
    simp [PublicKeyInfo.verify, hv, hlen, htake, hne]
  · intro m data sig hlen
    have h48 : (packed 48 (enc2 tagBlsPkVt m)).length = 48 := packed_length _ _ (by omega)
    have htake : (packed 48 (enc2 tagBlsPkVt m)).take 48 = packed 48 (enc2 tagBlsPkVt m) :=
      List.take_of_length_le (by omega)
    simp [PublicKeyInfo.verify, h48, htake, packedDec_packed, hlen]
  · intro m data sig hlen
    have h96 : (packed 96 (enc2 tagBlsPk m)).length = 96 := packed_length _ _ (by omega)
    have htake : (packed 96 (enc2 tagBlsPk m)).take 96 = packed 96 (enc2 tagBlsPk m) :=
      List.take_of_length_le (by omega)
    simp [PublicKeyInfo.verify, h96, htake, packedDec_packed, hlen]

/-- Witness for C5 amended: one concrete application of every
conjunct. -/
theorem verify_length_and_mismatch_semantics_witness :
    (PublicKeyInfo.mk [] .Ed25519VerificationKey2018 (randomBytes32 1)).verify
      [1] [] = .err .WrongKeyLength
    ∧ (PublicKeyInfo.mk [] .Ed25519VerificationKey2018 (randomBytes32 1)).verify
      [1] (edSigBytes (randomBytes32 1) [2]) = .ok false
    ∧ (PublicKeyInfo.mk [] .EcdsaSecp256k1VerificationKey2019
        (secpDerivePk (randomBytes32 1))).verify [1] [0] = .crash
    ∧ (PublicKeyInfo.mk [] .EcdsaSecp256k1VerificationKey2019
        (secpDerivePk (randomBytes32 1))).verify [1]
        (secpSigBytes (secpDerivePk (randomBytes32 1)) [2]) = .ok false
    ∧ (PublicKeyInfo.mk [] .EcdsaSecp256k1RecoveryMethod2020
        (secpDerivePk (randomBytes32 1))).verify [1] [] = .crash
    ∧ (PublicKeyInfo.mk [] .EcdsaSecp256k1RecoveryMethod2020
        (secpDerivePk (randomBytes32 1))).verify [1]
        (recSigRS (secpDerivePk (randomBytes32 1)) (keccak256 [2]) ++ [0])
        = .err .EcdsaCryptoError
    ∧ (PublicKeyInfo.mk [] .Bls12381G1Key2020
        (packed 48 (enc2 tagBlsPkVt 5))).verify [1] [] = .crash
    ∧ (PublicKeyInfo.mk [] .Bls12381G2Key2020
        (packed 96 (enc2 tagBlsPk 5))).verify [1] [] = .crash :=
  ⟨verify_length_and_mismatch_semantics.1 _ [1] [] (by decide) (by decide),
   verify_length_and_mismatch_semantics.2.1 _ _ [1] [2] (by decide)
     (Or.inr (by decide)),
   verify_length_and_mismatch_semantics.2.2.1 _ [1] [0]
     (Or.inl (secpDerivePk_length _)) (by decide),
   verify_length_and_mismatch_semantics.2.2.2.1 _ _ [1] [2]
     (Or.inl (secpDerivePk_length _)) (Or.inr (by decide)),
   verify_length_and_mismatch_semantics.2.2.2.2.1 _ [1] [] (by decide),
   verify_length_and_mismatch_semantics.2.2.2.2.2.1 _ _ [1] [2]
     (Or.inl (secpDerivePk_length _)) (Or.inr (by decide)),
   verify_length_and_mismatch_semantics.2.2.2.2.2.2.1 5 [1] [] (by decide),
   verify_length_and_mismatch_semantics.2.2.2.2.2.2.2 5 [1] [] (by decide)⟩

/-- C6 counterexample: the claim states that every operation checks the
buffer length and returns `WrongKeyLength` before slicing, so no
operation panics on a too-short buffer.  The X25519 `encrypt` branch
slices `self.public_key[..KEYSIZE]` with no prior check, so an empty
public key panics. -/
theorem encrypt_short_key_panics_not_error :
    (PublicKeyInfo.mk [] .X25519KeyAgreementKey2019 []).encrypt [5] = .crash := by
  decide

/-- C6 amended: only the Ed25519 verify branch validates lengths before
slicing (and never panics); the secp256k1 verify branches panic on
signatures shorter than 64 bytes, the BLS branches panic on held public
keys shorter than their fixed size, and the X25519 encrypt branch panics
exactly when the public key is shorter than the 32-byte `KEYSIZE`. -/
theorem slice_length_check_discipline :
    (∀ pk data sig : Bytes,
      (PublicKeyInfo.mk [] .Ed25519VerificationKey2018 pk).verify data sig ≠ .crash)
    ∧ (∀ pki : PublicKeyInfo, ∀ data : Bytes,
        pki.key_type = .X25519KeyAgreementKey2019 → pki.public_key.length < 32 →
        pki.encrypt data = .crash)
    ∧ (∀ pki : PublicKeyInfo, ∀ data : Bytes,
        pki.key_type = .X25519KeyAgreementKey2019 → 32 ≤ pki.public_key.length →
        pki.encrypt data ≠ .crash)
    ∧ (∀ pk data sig : Bytes, sec1Valid pk → sig.length < 64 →
        (PublicKeyInfo.mk [] .EcdsaSecp256k1VerificationKey2019 pk).verify data sig
          = .crash)
    ∧ (∀ pk data sig : Bytes, sig.length < 64 →
        (PublicKeyInfo.mk [] .EcdsaSecp256k1RecoveryMethod2020 pk).verify data sig
          = .crash)
    ∧ (∀ pk data sig : Bytes, pk.length < 48 →
        (PublicKeyInfo.mk [] .Bls12381G1Key2020 pk).verify data sig = .crash)
    ∧ (∀ pk data sig : Bytes, pk.length < 96 →
        (PublicKeyInfo.mk [] .Bls12381G2Key2020 pk).verify data sig = .crash) := by
  refine ⟨?_, ?_, ?_, ?_, ?_, ?_, ?_⟩
  · intro pk data sig h
    unfold PublicKeyInfo.verify at h
    split_ifs at h
  · intro pki data hkt hlen
    simp [PublicKeyInfo.encrypt, hkt, hlen]
  · intro pki data hkt hlen h
    simp only [PublicKeyInfo.encrypt, hkt, Nat.not_lt.mpr hlen, if_false,
      sealBox] at h
    exact RRes.noConfusion h
  · intro pk data sig hv hlen
    simp [PublicKeyInfo.verify, hv, hlen]
  · intro pk data sig hlen
    simp [PublicKeyInfo.verify, hlen]
  · intro pk data sig hlen
    simp [PublicKeyInfo.verify, hlen]
  · intro pk data sig hlen
    simp [PublicKeyInfo.verify, hlen]

/-- Witness for C6 amended: one concrete application of every
conjunct. -/
theorem slice_length_check_discipline_witness :
    (PublicKeyInfo.mk [] .Ed25519VerificationKey2018 []).verify [1] [] ≠ .crash
    ∧ (PublicKeyInfo.mk [] .X25519KeyAgreementKey2019 [0]).encrypt [5] = .crash
    ∧ (PublicKeyInfo.mk [] .X25519KeyAgreementKey2019
        (xDerivePk (randomBytes32 2))).encrypt [5] ≠ .crash
    ∧ (PublicKeyInfo.mk [] .EcdsaSecp256k1VerificationKey2019
        (secpDerivePk (randomBytes32 2))).verify [1] [9] = .crash
    ∧ (PublicKeyInfo.mk [] .EcdsaSecp256k1RecoveryMethod2020 []).verify [1] [9]
        = .crash
    ∧ (PublicKeyInfo.mk [] .Bls12381G1Key2020 []).verify [1] [] = .crash
    ∧ (PublicKeyInfo.mk [] .Bls12381G2Key2020 []).verify [1] [] = .crash :=
  ⟨slice_length_check_discipline.1 [] [1] [],
   slice_length_check_discipline.2.1 _ [5] rfl (by decide),
   slice_length_check_discipline.2.2.1 _ [5] rfl
     (by rw [xDerivePk_length]),
   slice_length_check_discipline.2.2.2.1 _ [1] [9]
     (Or.inl (secpDerivePk_length _)) (by decide),
   slice_length_check_discipline.2.2.2.2.1 [] [1] [9] (by decide),
   slice_length_check_discipline.2.2.2.2.2.1 [] [1] [] (by decide),
   slice_length_check_discipline.2.2.2.2.2.2 [] [1] [] (by decide)⟩

/-- C7 counterexample: the claim states that any operation on an
`RsaVerificationKey2018`-typed key fails with `UnsupportedKeyType`; the
`sign` dispatcher's catch-all actually returns `WrongKeyType` for that
key type. -/
theorem rsa_sign_wrong_key_type_not_unsupported :
    (KeyPair.mk (PublicKeyInfo.mk [] .RsaVerificationKey2018 []) []).sign [1]
      = .err .WrongKeyType
    ∧ (KeyPair.mk (PublicKeyInfo.mk [] .RsaVerificationKey2018 []) []).sign [1]
      ≠ .err .UnsupportedKeyType := by
  refine ⟨by decide, by decide⟩

/-- C7 amended: `sign`/`verify` on an X25519 key fail with
`WrongKeyType`; the constructors `new` and `random_pair` fail with
`UnsupportedKeyType` on `RsaVerificationKey2018`, while the per-key
operations (`sign`, `verify`, `encrypt`, `decrypt`) on an Rsa-typed key
fail with `WrongKeyType` — a typed error in every case, never a silent
no-op. -/
theorem wrong_and_unsupported_key_type_errors :
    (∀ kp : KeyPair, ∀ data : Bytes,
      kp.public_key.key_type = .X25519KeyAgreementKey2019 →
      kp.sign data = .err .WrongKeyType)
    ∧ (∀ pki : PublicKeyInfo, ∀ data sig : Bytes,
        pki.key_type = .X25519KeyAgreementKey2019 →
        pki.verify data sig = .err .WrongKeyType)
    ∧ (∀ priv : Bytes,
        KeyPair.new .RsaVerificationKey2018 priv = .err .UnsupportedKeyType)
    ∧ (∀ rand : Nat,
        KeyPair.random_pair .RsaVerificationKey2018 rand = .err .UnsupportedKeyType)
    ∧ (∀ kp : KeyPair, ∀ data : Bytes,
        kp.public_key.key_type = .RsaVerificationKey2018 →
        kp.sign data = .err .WrongKeyType)
    ∧ (∀ pki : PublicKeyInfo, ∀ data sig : Bytes,
        pki.key_type = .RsaVerificationKey2018 →
        pki.verify data sig = .err .WrongKeyType)
    ∧ (∀ pki : PublicKeyInfo, ∀ data : Bytes,
        pki.key_type = .RsaVerificationKey2018 →
        pki.encrypt data = .err .WrongKeyType)
    ∧ (∀ kp : KeyPair, ∀ data aad : Bytes,
        kp.public_key.key_type = .RsaVerificationKey2018 →
        kp.decrypt data aad = .err .WrongKeyType) := by
  refine ⟨?_, ?_, ?_, ?_, ?_, ?_, ?_, ?_⟩
  · intro kp data h
    simp [KeyPair.sign, h]
  · intro pki data sig h
    simp [PublicKeyInfo.verify, h]
  · intro priv
    rfl
  · intro rand
    rfl
  · intro kp data h
    simp [KeyPair.sign, h]
  · intro pki data sig h
    simp [PublicKeyInfo.verify, h]
  · intro pki data h
    simp [PublicKeyInfo.encrypt, h]
  · intro kp data aad h
    simp [KeyPair.decrypt, h]

/-- Witness for C7 amended: one concrete application of every
conjunct. -/
theorem wrong_and_unsupported_key_type_errors_witness :
    (KeyPair.mk (PublicKeyInfo.mk [] .X25519KeyAgreementKey2019 []) []).sign [1]
      = .err .WrongKeyType
    ∧ (PublicKeyInfo.mk [] .X25519KeyAgreementKey2019 []).verify [1] []
      = .err .WrongKeyType
    ∧ KeyPair.new .RsaVerificationKey2018 [1] = .err .UnsupportedKeyType
    ∧ KeyPair.random_pair .RsaVerificationKey2018 0 = .err .UnsupportedKeyType
    ∧ (KeyPair.mk (PublicKeyInfo.mk [] .RsaVerificationKey2018 []) []).sign [2]
      = .err .WrongKeyType
    ∧ (PublicKeyInfo.mk [] .RsaVerificationKey2018 []).verify [1] []
      = .err .WrongKeyType
    ∧ (PublicKeyInfo.mk [] .RsaVerificationKey2018 []).encrypt [1]
      = .err .WrongKeyType
    ∧ (KeyPair.mk (PublicKeyInfo.mk [] .RsaVerificationKey2018 []) []).decrypt [1] []
      = .err .WrongKeyType :=
  ⟨wrong_and_unsupported_key_type_errors.1 _ [1] rfl,
   wrong_and_unsupported_key_type_errors.2.1 _ [1] [] rfl,
   wrong_and_unsupported_key_type_errors.2.2.1 [1],
   wrong_and_unsupported_key_type_errors.2.2.2.1 0,
   wrong_and_unsupported_key_type_errors.2.2.2.2.1 _ [2] rfl,
   wrong_and_unsupported_key_type_errors.2.2.2.2.2.1 _ [1] [] rfl,
   wrong_and_unsupported_key_type_errors.2.2.2.2.2.2.1 _ [1] rfl,
   wrong_and_unsupported_key_type_errors.2.2.2.2.2.2.2 _ [1] [] rfl⟩

/-- C8: signing with a recovery-variant key hashes the data with
Keccak-256, signs the 32-byte digest with the recoverable scheme, and
returns exactly 65 bytes laid out as `r` (32 bytes), `s` (32 bytes) and
the single recovery byte `v`. -/
theorem recovery_sign_keccak_rsv_layout (kp : KeyPair) (data : Bytes)
    (hkt : kp.public_key.key_type = .EcdsaSecp256k1RecoveryMethod2020)
    (hsk : kp.private_key.length = 32) :
    ∃ r s : Bytes, ∃ v : Nat,
      kp.sign data = .ok ((r ++ s) ++ [v])
      ∧ r.length = 32 ∧ s.length = 32
      ∧ r ++ s = recSigRS (secpDerivePk kp.private_key) (keccak256 data)
      ∧ (keccak256 data).length = 32
      ∧ ((r ++ s) ++ [v]).length = 65 := by
  refine ⟨(recSigRS (secpDerivePk kp.private_key) (keccak256 data)).take 32,
          (recSigRS (secpDerivePk kp.private_key) (keccak256 data)).drop 32, 0,
          ?_, ?_, ?_, List.take_append_drop _ _, keccak256_length data, ?_⟩
  · rw [List.take_append_drop]
    simp [KeyPair.sign, hkt, hsk, keccak256_length]
  · simp [List.length_take, recSigRS_length]
  · simp [List.length_drop, recSigRS_length]
  · rw [List.take_append_drop]
    simp [recSigRS_length]

/-- Witness for C8 at the concrete recovery key pair. -/
theorem recovery_sign_keccak_rsv_layout_witness :
    ∃ r s : Bytes, ∃ v : Nat,
      sampleRecKeyPair.sign [1] = .ok ((r ++ s) ++ [v])
      ∧ r.length = 32 ∧ s.length = 32
      ∧ r ++ s = recSigRS (secpDerivePk sampleRecKeyPair.private_key) (keccak256 [1])
      ∧ (keccak256 [1]).length = 32
      ∧ ((r ++ s) ++ [v]).length = 65 :=
  recovery_sign_keccak_rsv_layout sampleRecKeyPair [1] rfl (by decide)

/-- C9: the three key-using wallet operations apply identical lookup
semantics: an absent reference is the "no key found" error, a present
non-key entry is the "incorrect content type" error, and a key entry is
passed to the underlying sign / verify / decrypt operation. -/
theorem wallet_ops_shared_lookup_semantics (w : UnlockedWallet)
    (r data sig : Bytes) :
    (lookupC w.contents r = none →
      w.sign_raw data r = .err .noKeyFound
      ∧ w.verify_raw data r sig = .err .noKeyFound
      ∧ w.decrypt data r = .err .noKeyFound)
    ∧ (∀ p : Bytes, lookupC w.contents r = some (.Opaque p) →
      w.sign_raw data r = .err .incorrectContentType
      ∧ w.verify_raw data r sig = .err .incorrectContentType
      ∧ w.decrypt data r = .err .incorrectContentType)
    ∧ (∀ k : KeyPair, lookupC w.contents r = some (.Key k) →
      w.sign_raw data r = liftK (k.sign data)
      ∧ w.verify_raw data r sig = liftK (k.verify data sig)
      ∧ w.decrypt data r = liftK (k.decrypt data [])) := by
  refine ⟨fun h => ?_, fun p h => ?_, fun k h => ?_⟩ <;>
    simp [UnlockedWallet.sign_raw, UnlockedWallet.verify_raw,
      UnlockedWallet.decrypt, UnlockedWallet.get_content, h]

/-- Witness for C9: concrete applications at a wallet with an absent
reference, a non-key entry and a key entry. -/
theorem wallet_ops_shared_lookup_semantics_witness :
    sampleLookupWallet.sign_raw [5] [3] = .err .noKeyFound
    ∧ sampleLookupWallet.verify_raw [5] [3] [6] = .err .noKeyFound
    ∧ sampleLookupWallet.decrypt [5] [3] = .err .noKeyFound
    ∧ sampleLookupWallet.sign_raw [5] [1] = .err .incorrectContentType
    ∧ sampleLookupWallet.decrypt [5] [1] = .err .incorrectContentType
    ∧ sampleLookupWallet.sign_raw [5] [2] = liftK (sampleRecKeyPair.sign [5]) :=
  ⟨((wallet_ops_shared_lookup_semantics sampleLookupWallet [3] [5] [6]).1
      (by decide)).1,
   ((wallet_ops_shared_lookup_semantics sampleLookupWallet [3] [5] [6]).1
      (by decide)).2.1,
   ((wallet_ops_shared_lookup_semantics sampleLookupWallet [3] [5] [6]).1
      (by decide)).2.2,
   ((wallet_ops_shared_lookup_semantics sampleLookupWallet [1] [5] [6]).2.1 [9]
      (by decide)).1,
   ((wallet_ops_shared_lookup_semantics sampleLookupWallet [1] [5] [6]).2.1 [9]
      (by decide)).2.2,
   ((wallet_ops_shared_lookup_semantics sampleLookupWallet [2] [5] [6]).2.2
      sampleRecKeyPair (by decide)).1⟩

end Wallet
